import Mathlib

/-!
# Verification of the conversational state store of `ai-voice-banking`

Shallow embedding of the SQLite-backed storage layer in `src/database.py`
and of the session-relevant control flow of the orchestration loop in
`src/app_og.py` (`main`).

Modelling conventions:
* each table is a Lean list of row structures, kept in rowid (insertion)
  order, exactly as SQLite stores them; `AUTOINCREMENT` counters are
  explicit fields of the `DB` state (SQLite starts them at 1);
* `datetime.now().isoformat()` is an opaque string supplied by the caller
  as a `now`/timestamp parameter;
* `NULL` becomes `Option`; Python's `if language:` truthiness test on an
  optional string (`None` and `""` are falsy) becomes `truthy`;
* `SELECT ... ORDER BY id DESC LIMIT ?` is modelled by an explicit
  descending insertion sort on the filtered rows followed by `sqlLimit`,
  which reproduces SQLite's `LIMIT` semantics: a negative limit means
  "no upper bound on the number of rows returned", `LIMIT 0` returns
  nothing;
* every operation is a pure function `DB → ... → DB` (writes) or
  `DB → ... → result` (reads), mirroring the open-connection /
  single-statement / commit / close discipline of the Python code.
-/

/-- A row of the `users` table:
`(id INTEGER PRIMARY KEY AUTOINCREMENT, user_id TEXT UNIQUE, name TEXT,
preferred_language TEXT, voice_tone TEXT, created_at TEXT)`. -/
structure UserRow where
  id : Nat
  user_id : String
  name : String
  preferred_language : String
  voice_tone : String
  created_at : String
deriving DecidableEq

/-- A row of the `conversation` table:
`(id INTEGER PRIMARY KEY AUTOINCREMENT, user_id TEXT, role TEXT,
message TEXT, timestamp TEXT)`. -/
structure ConvRow where
  id : Nat
  user_id : String
  role : String
  message : String
  timestamp : String
deriving DecidableEq

/-- A row of the `sessions` table:
`(id INTEGER PRIMARY KEY AUTOINCREMENT, user_id TEXT, session_start TEXT,
session_end TEXT)`; `session_end` is `NULL` (`none`) while the session is
open. -/
structure SessionRow where
  id : Nat
  user_id : String
  session_start : String
  session_end : Option String
deriving DecidableEq

/-- The whole database file `memory.db`: the three tables created by
`init_db`, plus the autoincrement counter of each table. -/
structure DB where
  users : List UserRow
  conversation : List ConvRow
  sessions : List SessionRow
  nextUserRowId : Nat
  nextConvId : Nat
  nextSessionId : Nat
deriving DecidableEq

/-- The freshly initialised database produced by `init_db` on a new file:
three empty tables; SQLite autoincrement ids start at 1. -/
def DB.empty : DB := ⟨[], [], [], 1, 1, 1⟩

/-- The dictionary `{"name": ..., "language": ..., "tone": ...}` returned
by `get_user_profile`. -/
structure Profile where
  name : String
  language : String
  tone : String
deriving DecidableEq

/-- One element `{"role": ..., "content": ...}` of the list returned by
`get_recent_context`. -/
structure CtxMsg where
  role : String
  content : String
deriving DecidableEq

/-- Python truthiness of an optional string argument: `None` and the
empty string are falsy (`if language:` / `if tone:` in
`update_user_preferences`). -/
def truthy : Option String → Bool
  | none => false
  | some s => s ≠ ""

/-- `create_user_profile(user_id, name, language="en", tone="neutral")`
(src/database.py:48-56): `INSERT OR IGNORE INTO users ...`.  The insert is
ignored exactly when a row with the same `user_id` already exists (the
`UNIQUE` constraint); otherwise a fresh row is appended with the next
autoincrement id and `created_at = now`. -/
def create_user_profile (db : DB) (user_id name : String)
    (language : String := "en") (tone : String := "neutral")
    (now : String := "") : DB :=
  if db.users.any (fun u => u.user_id == user_id) then db
  else
    { db with
      users := db.users ++
        [⟨db.nextUserRowId, user_id, name, language, tone, now⟩],
      nextUserRowId := db.nextUserRowId + 1 }

/-- `get_user_profile(user_id)` (src/database.py:59-70):
`SELECT name, preferred_language, voice_tone FROM users WHERE user_id = ?`
then `fetchone()` — the first matching row in rowid order, or `None`. -/
def get_user_profile (db : DB) (user_id : String) : Option Profile :=
  (db.users.find? (fun u => u.user_id == user_id)).map
    (fun u => ⟨u.name, u.preferred_language, u.voice_tone⟩)

/-- The effect of `UPDATE users SET preferred_language = ? WHERE user_id = ?`
on one row. -/
def setLang (user_id lang : String) (u : UserRow) : UserRow :=
  if u.user_id = user_id then { u with preferred_language := lang } else u

/-- The effect of `UPDATE users SET voice_tone = ? WHERE user_id = ?` on one
row. -/
def setTone (user_id tone : String) (u : UserRow) : UserRow :=
  if u.user_id = user_id then { u with voice_tone := tone } else u

/-- `update_user_preferences(user_id, language=None, tone=None)`
(src/database.py:73-81): two independent guarded `UPDATE` statements; each
runs only when its argument is truthy (`if language:` / `if tone:`), and
each updates every row whose `user_id` matches (the `UNIQUE` constraint
makes that at most one row, but the statement itself has no limit). -/
def update_user_preferences (db : DB) (user_id : String)
    (language : Option String := none) (tone : Option String := none) : DB :=
  let db1 :=
    match language with
    | some l => if l ≠ "" then { db with users := db.users.map (setLang user_id l) } else db
    | none => db
  match tone with
  | some t => if t ≠ "" then { db1 with users := db1.users.map (setTone user_id t) } else db1
  | none => db1

/-- `start_session(user_id)` (src/database.py:84-92):
`INSERT INTO sessions (user_id, session_start) VALUES (?, ?)` — appends an
open session row (`session_end` is `NULL`). -/
def start_session (db : DB) (user_id : String) (now : String := "") : DB :=
  { db with
    sessions := db.sessions ++ [⟨db.nextSessionId, user_id, now, none⟩],
    nextSessionId := db.nextSessionId + 1 }

/-- `end_session(user_id)` (src/database.py:95-104):
`UPDATE sessions SET session_end = ? WHERE user_id = ? AND session_end IS NULL`
— stamps `now` on every row of that user that is still open (the statement
has no `ORDER BY`/`LIMIT`: it touches all matching rows). -/
def end_session (db : DB) (user_id : String) (now : String := "") : DB :=
  { db with
    sessions := db.sessions.map (fun s =>
      if s.user_id = user_id ∧ s.session_end = none
      then { s with session_end := some now } else s) }

/-- `save_message(user_id, role, message)` (src/database.py:107-115):
`INSERT INTO conversation (user_id, role, message, timestamp) VALUES (?,?,?,?)`
— appends one immutable record with the next autoincrement id. -/
def save_message (db : DB) (user_id role message : String)
    (now : String := "") : DB :=
  { db with
    conversation := db.conversation ++
      [⟨db.nextConvId, user_id, role, message, now⟩],
    nextConvId := db.nextConvId + 1 }

/-- Insert `x` into a list kept in descending `f`-order. -/
def insertDescBy (f : α → Nat) (x : α) : List α → List α
  | [] => [x]
  | y :: ys => if f y ≤ f x then x :: y :: ys else y :: insertDescBy f x ys

/-- Sort a list into descending `f`-order (models `ORDER BY id DESC`;
`id` values are distinct, so ties never arise on real tables). -/
def sortDescBy (f : α → Nat) : List α → List α
  | [] => []
  | x :: xs => insertDescBy f x (sortDescBy f xs)

/-- SQLite `LIMIT ?` with a bound parameter of Python type `int`: a
negative value means no upper bound; otherwise at most `limit` rows are
returned. -/
def sqlLimit (limit : Int) (l : List α) : List α :=
  if limit < 0 then l else l.take limit.toNat

/-- `get_recent_context(user_id, limit=8)` (src/database.py:118-129):
`SELECT role, message FROM conversation WHERE user_id = ? ORDER BY id DESC
LIMIT ?`, then `rows.reverse()` in Python, then the list comprehension
building `{"role": r[0], "content": r[1]}` dictionaries. -/
def get_recent_context (db : DB) (user_id : String)
    (limit : Int := 8) : List CtxMsg :=
  (sqlLimit limit (sortDescBy (fun r => r.id)
      (db.conversation.filter (fun r => r.user_id == user_id)))).reverse.map
    (fun r => ⟨r.role, r.message⟩)

/-!
## Model of the orchestration loop (`main` in src/app_og.py)

`main` (lines 283-392), after resolving/creating the profile, executes:

```
start_session(user_id)                     # line 299
greeting = ...; speak_text(greeting, ...)  # lines 302-303
recognizer = sr.Recognizer()               # line 305
try:
    while True:                            # lines 308-385
        ... listen / transcribe ...
        if not user_text: speak; continue
        if user_text in EXIT_PHRASES: speak; break
        save_message(user_id, 'user', user_text)
        ... classify / backend / translate ...
        save_message(user_id, 'assistant', final_message_translated)
except KeyboardInterrupt: ...
except Exception: ...
finally:
    end_session(user_id)                   # line 392
```

The statements between `start_session` and `try` run OUTSIDE the
`try/finally`: `speak_text` swallows only `Exception` (a
`KeyboardInterrupt`, which is a `BaseException`, propagates out of it),
and `sr.Recognizer()` may raise anything.  An exception raised in that
window escapes `main` without `end_session` ever running; this is the
`preTryFault := true` branch of `main_run` below.  Every exit that
originates inside the `try` block — the exit-phrase `break`, a
`KeyboardInterrupt`, or any `Exception` raised by the loop body — reaches
the `finally` clause, so `end_session` runs: that is the
`preTryFault := false` branch.
-/

/-- How one iteration of the `while True` loop affects the store:
either the transcription is empty (no writes, `continue`), or a full turn
writes the user message and the assistant reply, or a fault
(`KeyboardInterrupt` or `Exception`) is raised after the user message was
saved but before the reply was, or a fault is raised before any write of
the iteration.  A fault ends the loop (the exception is caught by the
`except` handlers around it). -/
inductive LoopEvent where
  | emptyTurn
  | fullTurn (userText userTs reply replyTs : String)
  | faultAfterUserSave (userText userTs : String)
  | faultBeforeSave
deriving DecidableEq

/-- The store effect of running the `while True` body on a list of
iteration outcomes; a fault event stops the loop there. An exhausted list
models the `break` taken on an exit phrase. -/
def run_loop (db : DB) (uid : String) : List LoopEvent → DB
  | [] => db
  | LoopEvent.emptyTurn :: es => run_loop db uid es
  | LoopEvent.fullTurn u ut r rt :: es =>
      run_loop
        (save_message (save_message db uid "user" u ut) uid "assistant" r rt)
        uid es
  | LoopEvent.faultAfterUserSave u ut :: _ => save_message db uid "user" u ut
  | LoopEvent.faultBeforeSave :: _ => db

/-- The store effect of one run of `main` from the `start_session` call
onward.  `preTryFault = true` models an exception escaping the
greeting/recognizer-setup region between `start_session(user_id)` (line
299) and the `try` (line 307): `main` exits with the exception and the
`finally` block is never entered, so `end_session` is skipped.  Otherwise
the loop body runs and, on every exit path out of the `try`, the
`finally` clause calls `end_session(user_id)`. -/
def main_run (db : DB) (uid startTs endTs : String)
    (preTryFault : Bool) (events : List LoopEvent) : DB :=
  let db1 := start_session db uid startTs
  if preTryFault then db1
  else end_session (run_loop db1 uid events) uid endTs

/-!
## Helper lemmas
-/

theorem list_map_eq_self_of {l : List α} {f : α → α}
    (h : ∀ a ∈ l, f a = a) : l.map f = l := by
  induction l with
  | nil => rfl
  | cons x xs ih =>
      simp only [List.map_cons, h x (List.mem_cons_self x xs),
        ih (fun a ha => h a (List.mem_cons_of_mem x ha))]

/-- `end_session` leaves every open session of `user_id` closed. -/
theorem end_session_closes_all {db : DB} {uid now : String} :
    ∀ s ∈ (end_session db uid now).sessions,
      s.user_id = uid → s.session_end ≠ none := by
  intro s hs huid
  simp only [end_session, List.mem_map] at hs
  obtain ⟨t, _, ht⟩ := hs
  by_cases hc : t.user_id = uid ∧ t.session_end = none
  · rw [if_pos hc] at ht
    subst ht
    simp
  · rw [if_neg hc] at ht
    subst ht
    intro hnone
    exact hc ⟨huid, hnone⟩

/-- `end_session` keeps every row that it does not target. -/
theorem end_session_keeps_untargeted {db : DB} {uid now : String} :
    ∀ s ∈ db.sessions, (s.user_id ≠ uid ∨ s.session_end ≠ none) →
      s ∈ (end_session db uid now).sessions := by
  intro s hs hcond
  simp only [end_session, List.mem_map]
  refine ⟨s, hs, ?_⟩
  rw [if_neg]
  rintro ⟨h1, h2⟩
  rcases hcond with h | h
  · exact h h1
  · exact h h2

/-- `end_session` stamps `now` on every targeted row. -/
theorem end_session_stamps {db : DB} {uid now : String} :
    ∀ s ∈ db.sessions, s.user_id = uid → s.session_end = none →
      ({ s with session_end := some now } : SessionRow) ∈
        (end_session db uid now).sessions := by
  intro s hs h1 h2
  simp only [end_session, List.mem_map]
  exact ⟨s, hs, by rw [if_pos ⟨h1, h2⟩]⟩

theorem run_loop_sessions (uid : String) :
    ∀ (es : List LoopEvent) (db : DB),
      (run_loop db uid es).sessions = db.sessions := by
  intro es
  induction es with
  | nil => intro db; rfl
  | cons e es ih =>
      intro db
      cases e with
      | emptyTurn => exact ih db
      | fullTurn u ut r rt => exact ih _
      | faultAfterUserSave u ut => rfl
      | faultBeforeSave => rfl

theorem run_loop_users (uid : String) :
    ∀ (es : List LoopEvent) (db : DB),
      (run_loop db uid es).users = db.users := by
  intro es
  induction es with
  | nil => intro db; rfl
  | cons e es ih =>
      intro db
      cases e with
      | emptyTurn => exact ih db
      | fullTurn u ut r rt => exact ih _
      | faultAfterUserSave u ut => rfl
      | faultBeforeSave => rfl

/-- If `x` is below every element of `l`, the descending insertion pushes
it to the very end. -/
theorem insertDescBy_bottom {f : α → Nat} {x : α} :
    ∀ {l : List α}, (∀ y ∈ l, f x < f y) → insertDescBy f x l = l ++ [x] := by
  intro l
  induction l with
  | nil => intro _; rfl
  | cons y ys ih =>
      intro h
      have hy : f x < f y := h y (List.mem_cons_self y ys)
      rw [insertDescBy, if_neg (by omega), ih (fun z hz => h z (List.mem_cons_of_mem y hz))]
      rfl

/-- Sorting a strictly `f`-ascending list into descending order just
reverses it. -/
theorem sortDescBy_of_ascending {f : α → Nat} :
    ∀ {l : List α}, l.Pairwise (fun a b => f a < f b) →
      sortDescBy f l = l.reverse := by
  intro l
  induction l with
  | nil => intro _; rfl
  | cons x xs ih =>
      intro h
      rw [List.pairwise_cons] at h
      rw [sortDescBy, ih h.2, insertDescBy_bottom
        (fun y hy => h.1 y (List.mem_reverse.mp hy)), List.reverse_cons]

theorem insertDescBy_length {f : α → Nat} {x : α} :
    ∀ {l : List α}, (insertDescBy f x l).length = l.length + 1 := by
  intro l
  induction l with
  | nil => rfl
  | cons y ys ih =>
      rw [insertDescBy]
      by_cases h : f y ≤ f x
      · rw [if_pos h]; rfl
      · rw [if_neg h]; simp [ih]

theorem sortDescBy_length {f : α → Nat} :
    ∀ {l : List α}, (sortDescBy f l).length = l.length := by
  intro l
  induction l with
  | nil => rfl
  | cons x xs ih => rw [sortDescBy, insertDescBy_length, ih]; rfl

/-- The autoincrement invariant of the `conversation` table: rows are in
strictly increasing `id` order and every id is below the next
autoincrement value.  It holds of `DB.empty` and is preserved by every
store operation (for `save_message` see `save_message_convSorted`). -/
def convSorted (db : DB) : Prop :=
  db.conversation.Pairwise (fun a b => a.id < b.id) ∧
  ∀ r ∈ db.conversation, r.id < db.nextConvId

theorem convSorted_empty : convSorted DB.empty := by
  constructor
  · exact List.Pairwise.nil
  · intro r hr; cases hr

theorem save_message_convSorted {db : DB} {uid role msg ts : String}
    (h : convSorted db) : convSorted (save_message db uid role msg ts) := by
  obtain ⟨hp, hb⟩ := h
  constructor
  · rw [save_message]
    refine List.pairwise_append.mpr ⟨hp, List.pairwise_singleton _ _, ?_⟩
    intro a ha b hb'
    simp only [List.mem_singleton] at hb'
    subst hb'
    exact hb a ha
  · intro r hr
    rw [save_message] at hr
    simp only [List.mem_append, List.mem_singleton] at hr
    rcases hr with hr | hr
    · have := hb r hr
      simp only [save_message]
      omega
    · subst hr
      simp [save_message]

/-- One `save_message(user_id, role, message)` call of a run of appends:
the role, the text, and the wall-clock timestamp recorded with it. -/
structure MsgIn where
  role : String
  message : String
  ts : String
deriving DecidableEq

/-- A sequence of `save_message` calls for one user, in order. -/
def run_appends (db : DB) (uid : String) : List MsgIn → DB
  | [] => db
  | m :: ms => run_appends (save_message db uid m.role m.message m.ts) uid ms

/-- The conversation rows that a run of appends produces, with consecutive
autoincrement ids starting at `startId`. -/
def mkRows (startId : Nat) (uid : String) : List MsgIn → List ConvRow
  | [] => []
  | m :: ms => ⟨startId, uid, m.role, m.message, m.ts⟩ :: mkRows (startId + 1) uid ms

theorem run_appends_eq (uid : String) :
    ∀ (msgs : List MsgIn) (db : DB),
      run_appends db uid msgs =
        { db with
          conversation := db.conversation ++ mkRows db.nextConvId uid msgs,
          nextConvId := db.nextConvId + msgs.length } := by
  intro msgs
  induction msgs with
  | nil => intro db; simp [run_appends, mkRows]
  | cons m ms ih =>
      intro db
      cases db with
      | mk us cv ss nu nc ns =>
          rw [run_appends, ih]
          simp only [save_message, mkRows, List.append_assoc, List.length_cons,
            List.singleton_append, DB.mk.injEq, true_and, and_true]
          omega

theorem mkRows_length (uid : String) :
    ∀ (msgs : List MsgIn) (s : Nat), (mkRows s uid msgs).length = msgs.length := by
  intro msgs
  induction msgs with
  | nil => intro s; rfl
  | cons m ms ih => intro s; simp [mkRows, ih]

theorem mkRows_filter (uid : String) :
    ∀ (msgs : List MsgIn) (s : Nat),
      (mkRows s uid msgs).filter (fun r => r.user_id == uid) = mkRows s uid msgs := by
  intro msgs
  induction msgs with
  | nil => intro s; rfl
  | cons m ms ih => intro s; simp [mkRows, List.filter_cons, ih]

theorem mkRows_le (uid : String) :
    ∀ (msgs : List MsgIn) (s : Nat), ∀ r ∈ mkRows s uid msgs, s ≤ r.id := by
  intro msgs
  induction msgs with
  | nil => intro s r hr; cases hr
  | cons m ms ih =>
      intro s r hr
      rw [mkRows] at hr
      rcases List.mem_cons.mp hr with h | h
      · subst h; exact Nat.le_refl s
      · have := ih (s + 1) r h
        omega

theorem mkRows_pairwise (uid : String) :
    ∀ (msgs : List MsgIn) (s : Nat),
      (mkRows s uid msgs).Pairwise (fun a b => a.id < b.id) := by
  intro msgs
  induction msgs with
  | nil => intro s; exact List.Pairwise.nil
  | cons m ms ih =>
      intro s
      rw [mkRows, List.pairwise_cons]
      refine ⟨?_, ih (s + 1)⟩
      intro r hr
      have := mkRows_le uid ms (s + 1) r hr
      show s < r.id
      omega

theorem mkRows_map (uid : String) :
    ∀ (msgs : List MsgIn) (s : Nat),
      (mkRows s uid msgs).map (fun r => (⟨r.role, r.message⟩ : CtxMsg)) =
        msgs.map (fun m => (⟨m.role, m.message⟩ : CtxMsg)) := by
  intro msgs
  induction msgs with
  | nil => intro s; rfl
  | cons m ms ih => intro s; simp [mkRows, ih]

/-!
## Claims
-/

/-- C1 (amended): `close_session(user_id)` sets `session_end = now` on
EVERY session row of `user_id` with `session_end = null` — not only the
most recently opened one — and leaves every row of another user and every
already-closed row unchanged.  (The `UPDATE ... WHERE user_id = ? AND
session_end IS NULL` has no `ORDER BY`/`LIMIT`, so it targets all open
rows of the user.) -/
theorem claim_C1_thm (db : DB) (uid now : String) :
    ((end_session db uid now).sessions.length = db.sessions.length) ∧
    (∀ s ∈ (end_session db uid now).sessions,
      s.user_id = uid → s.session_end ≠ none) ∧
    (∀ s ∈ db.sessions, s.user_id ≠ uid ∨ s.session_end ≠ none →
      s ∈ (end_session db uid now).sessions) ∧
    (∀ s ∈ db.sessions, s.user_id = uid → s.session_end = none →
      ({ s with session_end := some now } : SessionRow) ∈
        (end_session db uid now).sessions) :=
  ⟨by simp [end_session], end_session_closes_all,
    end_session_keeps_untargeted, end_session_stamps⟩

/-- A store in which user `"u1"` has two open sessions (permitted by the
store, see §9 of the specification). -/
def dbTwoOpen : DB := start_session (start_session DB.empty "u1" "t1") "u1" "t2"

/-- C1 counterexample: user `"u1"` has two open sessions; after
`end_session("u1")` BOTH rows carry `session_end = "t3"` — the earlier
open session (id 1, opened at `"t1"`) did not stay `null`, contradicting
the claim that only the most recently opened one is closed. -/
theorem claim_C1_counterexample :
    dbTwoOpen.sessions.map (fun s => s.session_end) = [none, none] ∧
      (end_session dbTwoOpen "u1" "t3").sessions.map (fun s => s.session_end) =
        [some "t3", some "t3"] := by
  exact ⟨rfl, rfl⟩

/-- Witness for `claim_C1_thm`: the stamping clause applied to the older
open session of `dbTwoOpen`. -/
theorem claim_C1_witness :
    ((⟨1, "u1", "t1", some "t3"⟩ : SessionRow) ∈
      (end_session dbTwoOpen "u1" "t3").sessions) :=
  (claim_C1_thm dbTwoOpen "u1" "t3").2.2.2 ⟨1, "u1", "t1", none⟩
    (by decide) rfl rfl

/-- C2 (amended): `recent(user_id, limit)` returns at most `limit`
messages when `limit > 0` (exactly the number present when fewer than
`limit` exist), the empty sequence when `limit = 0`, and ALL of the
user's messages when `limit < 0` — SQLite treats a negative `LIMIT` as
"no upper bound", so `limit <= 0` does not uniformly give an empty
result. -/
theorem claim_C2_thm (db : DB) (uid : String) (limit : Int) :
    (0 < limit → (get_recent_context db uid limit).length ≤ limit.toNat) ∧
    (0 < limit →
      (db.conversation.filter (fun r => r.user_id == uid)).length ≤ limit.toNat →
      (get_recent_context db uid limit).length =
        (db.conversation.filter (fun r => r.user_id == uid)).length) ∧
    (limit = 0 → get_recent_context db uid limit = []) ∧
    (limit < 0 →
      (get_recent_context db uid limit).length =
        (db.conversation.filter (fun r => r.user_id == uid)).length) := by
  have hkey : (get_recent_context db uid limit).length =
      (sqlLimit limit (sortDescBy (fun r => r.id)
        (db.conversation.filter (fun r => r.user_id == uid)))).length := by
    simp only [get_recent_context, List.length_map, List.length_reverse]
  refine ⟨?_, ?_, ?_, ?_⟩
  · intro hpos
    rw [hkey, sqlLimit, if_neg (by omega : ¬ limit < 0)]
    exact List.length_take_le _ _
  · intro hpos hle
    rw [hkey, sqlLimit, if_neg (by omega : ¬ limit < 0), List.length_take,
      sortDescBy_length]
    omega
  · intro h0
    subst h0
    simp [get_recent_context, sqlLimit]
  · intro hneg
    rw [hkey, sqlLimit, if_pos hneg, sortDescBy_length]

/-- The database after a single `save_message("u1", "user", "hi")` on a
fresh store. -/
def dbOneMsg : DB := save_message DB.empty "u1" "user" "hi" "t1"

/-- C2 counterexample: `limit = -1` satisfies `limit <= 0`, yet
`get_recent_context("u1", -1)` on a store holding one message for `"u1"`
returns that message instead of the empty sequence (SQLite: negative
`LIMIT` = unbounded). -/
theorem claim_C2_counterexample :
    (-1 : Int) ≤ 0 ∧
      get_recent_context dbOneMsg "u1" (-1) = [⟨"user", "hi"⟩] ∧
      get_recent_context dbOneMsg "u1" (-1) ≠ [] := by
  refine ⟨by decide, by decide, by decide⟩

/-- Witness for `claim_C2_thm`: the bounded-window clause at `limit = 8`
and the unbounded clause at `limit = -2`, both on `dbOneMsg`. -/
theorem claim_C2_witness :
    ((0 : Int) < 8 ∧ (get_recent_context dbOneMsg "u1" 8).length ≤ (8 : Int).toNat) ∧
      ((-2 : Int) < 0 ∧ (get_recent_context dbOneMsg "u1" (-2)).length =
        (dbOneMsg.conversation.filter (fun r => r.user_id == "u1")).length) :=
  ⟨⟨by decide, (claim_C2_thm dbOneMsg "u1" 8).1 (by decide)⟩,
    ⟨by decide, (claim_C2_thm dbOneMsg "u1" (-2)).2.2.2 (by decide)⟩⟩

/-- C3: appending any sequence of `N` messages for `user_id` (to any
store satisfying the autoincrement invariant) and then asking
`recent(user_id, N)` returns exactly those `N` records as role/content
pairs, in append order — oldest first, newest last.  (`ORDER BY id DESC
LIMIT N` retrieves the `N` newest rows backwards; the Python
`rows.reverse()` restores chronological order.) -/
theorem claim_C3_thm (db : DB) (uid : String) (msgs : List MsgIn)
    (hinv : convSorted db) :
    get_recent_context (run_appends db uid msgs) uid (msgs.length : Int) =
      msgs.map (fun m => (⟨m.role, m.message⟩ : CtxMsg)) := by
  obtain ⟨hp, hb⟩ := hinv
  rw [run_appends_eq]
  have hfilter :
      ((db.conversation ++ mkRows db.nextConvId uid msgs).filter
          (fun r => r.user_id == uid)) =
        db.conversation.filter (fun r => r.user_id == uid) ++
          mkRows db.nextConvId uid msgs := by
    rw [List.filter_append, mkRows_filter]
  have hasc :
      (db.conversation.filter (fun r => r.user_id == uid) ++
          mkRows db.nextConvId uid msgs).Pairwise (fun a b => a.id < b.id) := by
    refine List.pairwise_append.mpr
      ⟨List.Pairwise.sublist (List.filter_sublist _) hp,
        mkRows_pairwise uid msgs _, ?_⟩
    intro a ha b hbnew
    have h1 : a.id < db.nextConvId := hb a (List.mem_filter.mp ha).1
    have h2 := mkRows_le uid msgs db.nextConvId b hbnew
    omega
  have hlen : (mkRows db.nextConvId uid msgs).reverse.length = msgs.length := by
    rw [List.length_reverse, mkRows_length]
  simp only [get_recent_context]
  rw [hfilter, sortDescBy_of_ascending hasc, List.reverse_append, sqlLimit,
    if_neg (by omega : ¬ ((msgs.length : Int) < 0)), Int.toNat_ofNat,
    List.take_left' hlen, List.reverse_reverse, mkRows_map]

/-- The two turns of Scenario B of the specification. -/
def msgsScenarioB : List MsgIn :=
  [⟨"user", "check balance", "t1"⟩, ⟨"assistant", "your balance is 500", "t2"⟩]

/-- Witness for `claim_C3_thm`: Scenario B on a fresh store. -/
theorem claim_C3_witness :
    convSorted DB.empty ∧
      get_recent_context (run_appends DB.empty "u1" msgsScenarioB) "u1"
          (msgsScenarioB.length : Int) =
        msgsScenarioB.map (fun m => (⟨m.role, m.message⟩ : CtxMsg)) :=
  ⟨convSorted_empty, claim_C3_thm DB.empty "u1" msgsScenarioB convSorted_empty⟩

/-- `INSERT OR IGNORE` is a no-op when a row with the same `user_id`
already exists. -/
theorem create_noop_of_any {db : DB} {uid n l t ts : String}
    (h : db.users.any (fun u => u.user_id == uid) = true) :
    create_user_profile db uid n l t ts = db := by
  rw [create_user_profile, if_pos h]

/-- C4: profile creation is idempotent.  On any store respecting the
`UNIQUE(user_id)` constraint, a second `create_user_profile` call for the
same `user_id` — with arbitrary name/language/tone arguments — is the
identity on the store (so the first call's `name`, `preferred_language`,
`voice_tone` and `created_at` survive untouched and no error is
possible: the operation is a total function), and after the first call
exactly one row for `user_id` is stored. -/
theorem claim_C4_thm (db : DB) (uid n1 l1 t1 ts1 n2 l2 t2 ts2 : String)
    (huniq : (db.users.filter (fun u => u.user_id == uid)).length ≤ 1) :
    create_user_profile (create_user_profile db uid n1 l1 t1 ts1)
        uid n2 l2 t2 ts2 = create_user_profile db uid n1 l1 t1 ts1 ∧
      ((create_user_profile db uid n1 l1 t1 ts1).users.filter
          (fun u => u.user_id == uid)).length = 1 := by
  have hany : (create_user_profile db uid n1 l1 t1 ts1).users.any
      (fun u => u.user_id == uid) = true := by
    by_cases h : db.users.any (fun u => u.user_id == uid)
    · rw [create_noop_of_any h]; exact h
    · rw [create_user_profile, if_neg h]
      simp
  refine ⟨create_noop_of_any hany, ?_⟩
  by_cases h : db.users.any (fun u => u.user_id == uid)
  · rw [create_noop_of_any h]
    obtain ⟨x, hx, hpx⟩ := List.any_eq_true.mp h
    have hmem : x ∈ db.users.filter (fun u => u.user_id == uid) :=
      List.mem_filter.mpr ⟨hx, hpx⟩
    have hpos : 0 < (db.users.filter (fun u => u.user_id == uid)).length :=
      List.length_pos.mpr (List.ne_nil_of_mem hmem)
    omega
  · have hnil : db.users.filter (fun u => u.user_id == uid) = [] := by
      rw [List.filter_eq_nil_iff]
      intro a ha
      simpa using (List.any_eq_false.mp (Bool.eq_false_iff.mpr h)) a ha
    rw [create_user_profile, if_neg h]
    simp [List.filter_append, hnil]

/-- Witness for `claim_C4_thm`: Scenario A of the specification, with a
different second argument list. -/
theorem claim_C4_witness :
    ((DB.empty.users.filter (fun u => u.user_id == "u1")).length ≤ 1) ∧
      create_user_profile (create_user_profile DB.empty "u1" "U1" "en" "neutral" "t1")
          "u1" "U2" "hi" "formal" "t2" =
        create_user_profile DB.empty "u1" "U1" "en" "neutral" "t1" ∧
      ((create_user_profile DB.empty "u1" "U1" "en" "neutral" "t1").users.filter
          (fun u => u.user_id == "u1")).length = 1 :=
  ⟨by decide,
    (claim_C4_thm DB.empty "u1" "U1" "en" "neutral" "t1" "U2" "hi" "formal" "t2"
      (by decide)).1,
    (claim_C4_thm DB.empty "u1" "U1" "en" "neutral" "t1" "U2" "hi" "formal" "t2"
      (by decide)).2⟩

/-- C5: evaluation of the orchestration-loop model at the failing input
and at in-loop fault inputs.  With `preTryFault = true` — an exception
(e.g. a `KeyboardInterrupt` during the greeting `speak_text`, whose
handlers catch only `Exception`, or an error from `sr.Recognizer()`)
escaping between `start_session` (app_og.py:299) and the `try`
(app_og.py:307) — the run ends with the opened session still having
`session_end = none`: `close_session` was not invoked on that exit path.
On every exit path that reaches the `try` block (exit-phrase `break`,
`KeyboardInterrupt`, unexpected `Exception` in the loop body, with or
without messages saved), the `finally` clause closes the session. -/
theorem claim_C5_bug :
    (main_run DB.empty "u1" "t1" "t2" true []).sessions =
        [⟨1, "u1", "t1", none⟩] ∧
      (main_run DB.empty "u1" "t1" "t2" false
          [LoopEvent.fullTurn "check balance" "t3" "your balance is 500" "t4",
           LoopEvent.faultBeforeSave]).sessions =
        [⟨1, "u1", "t1", some "t2"⟩] ∧
      (main_run DB.empty "u1" "t1" "t2" false
          [LoopEvent.faultAfterUserSave "check balance" "t3"]).sessions =
        [⟨1, "u1", "t1", some "t2"⟩] ∧
      (main_run DB.empty "u1" "t1" "t2" false []).sessions =
        [⟨1, "u1", "t1", some "t2"⟩] := by
  exact ⟨rfl, rfl, rfl, rfl⟩

/-- `update_user_preferences` on a `user_id` with no user row is the
identity on the store, whatever the supplied arguments. -/
theorem update_noop_of_absent {db : DB} {uid : String}
    (hu : ∀ u ∈ db.users, u.user_id ≠ uid) :
    ∀ language tone, update_user_preferences db uid language tone = db := by
  have hL : ∀ l, db.users.map (setLang uid l) = db.users := fun l =>
    list_map_eq_self_of (fun u h => by rw [setLang, if_neg (hu u h)])
  have hT : ∀ t, db.users.map (setTone uid t) = db.users := fun t =>
    list_map_eq_self_of (fun u h => by rw [setTone, if_neg (hu u h)])
  intro language tone
  cases language with
  | none =>
      cases tone with
      | none => rfl
      | some t =>
          show (if t ≠ "" then
            { db with users := db.users.map (setTone uid t) } else db) = db
          split_ifs with ht
          · rw [hT t]
          · rfl
  | some l =>
      cases tone with
      | none =>
          show (if l ≠ "" then
            { db with users := db.users.map (setLang uid l) } else db) = db
          split_ifs with hl
          · rw [hL l]
          · rfl
      | some t =>
          show update_user_preferences db uid (some l) (some t) = db
          rw [update_user_preferences]
          split_ifs with hl ht ht
          · show { db with users := (db.users.map (setLang uid l)).map (setTone uid t) } = db
            rw [hL l, hT t]
          · show { db with users := db.users.map (setTone uid t) } = db
            rw [hT t]
          · show { db with users := db.users.map (setLang uid l) } = db
            rw [hL l]
          · rfl

/-- `end_session` on a `user_id` with no session row is the identity on
the store. -/
theorem end_session_noop_of_absent {db : DB} {uid now : String}
    (hs : ∀ s ∈ db.sessions, s.user_id ≠ uid) :
    end_session db uid now = db := by
  rw [end_session]
  rw [list_map_eq_self_of (fun s hmem => by
    rw [if_neg]
    rintro ⟨h1, _⟩
    exact hs s hmem h1)]

/-- C6: on a `user_id` with no stored rows, `update_preferences` and
`close_session` leave the whole store unchanged (zero mutations, no
error: both are total functions), and `get_profile` returns the absent
result `none` rather than raising. -/
theorem claim_C6_thm (db : DB) (uid : String) (language tone : Option String)
    (now : String)
    (hu : ∀ u ∈ db.users, u.user_id ≠ uid)
    (hs : ∀ s ∈ db.sessions, s.user_id ≠ uid)
    (_hc : ∀ c ∈ db.conversation, c.user_id ≠ uid) :
    update_user_preferences db uid language tone = db ∧
      end_session db uid now = db ∧
      get_user_profile db uid = none := by
  refine ⟨update_noop_of_absent hu language tone,
    end_session_noop_of_absent hs, ?_⟩
  have hfind : db.users.find? (fun u => u.user_id == uid) = none :=
    List.find?_eq_none.mpr (fun u hmem => by simpa using hu u hmem)
  rw [get_user_profile, hfind]
  rfl

/-- Witness for `claim_C6_thm`: an unknown user on a store that holds
another user's data. -/
theorem claim_C6_witness :
    update_user_preferences dbOneMsg "ghost" (some "hi") (some "formal") = dbOneMsg ∧
      end_session dbOneMsg "ghost" "t9" = dbOneMsg ∧
      get_user_profile dbOneMsg "ghost" = none :=
  claim_C6_thm dbOneMsg "ghost" (some "hi") (some "formal") "t9"
    (by decide) (by decide) (by decide)

/-- The per-row effect of one `update_user_preferences(user_id, language,
tone)` call (both guarded `UPDATE`s composed). -/
def updOne (uid : String) (language tone : Option String) (u : UserRow) : UserRow :=
  match language, tone with
  | none, none => u
  | some l, none => if l ≠ "" then setLang uid l u else u
  | none, some t => if t ≠ "" then setTone uid t u else u
  | some l, some t =>
      if t ≠ "" then setTone uid t (if l ≠ "" then setLang uid l u else u)
      else (if l ≠ "" then setLang uid l u else u)

theorem update_users_eq (db : DB) (uid : String) (language tone : Option String) :
    (update_user_preferences db uid language tone).users =
      db.users.map (updOne uid language tone) := by
  cases language with
  | none =>
      cases tone with
      | none =>
          simp only [update_user_preferences]
          exact (list_map_eq_self_of (fun a _ => rfl)).symm
      | some t =>
          by_cases ht : t = ""
          · subst ht
            simp only [update_user_preferences]
            rw [if_neg (by simp)]
            exact (list_map_eq_self_of (fun a _ => rfl)).symm
          · simp [update_user_preferences, updOne, ht]
  | some l =>
      by_cases hl : l = ""
      · subst hl
        cases tone with
        | none =>
            simp only [update_user_preferences]
            rw [if_neg (by simp)]
            exact (list_map_eq_self_of (fun a _ => rfl)).symm
        | some t =>
            by_cases ht : t = ""
            · subst ht
              simp only [update_user_preferences]
              rw [if_neg (by simp), if_neg (by simp)]
              exact (list_map_eq_self_of (fun a _ => rfl)).symm
            · simp [update_user_preferences, updOne, ht]
      · cases tone with
        | none => simp [update_user_preferences, updOne, hl]
        | some t =>
            by_cases ht : t = ""
            · subst ht; simp [update_user_preferences, updOne, hl]
            · simp [update_user_preferences, updOne, hl, ht, List.map_map,
                Function.comp]

theorem update_conversation_eq (db : DB) (uid : String)
    (language tone : Option String) :
    (update_user_preferences db uid language tone).conversation =
      db.conversation := by
  cases language <;> cases tone <;>
    simp only [update_user_preferences] <;> split_ifs <;> rfl

theorem update_sessions_eq (db : DB) (uid : String)
    (language tone : Option String) :
    (update_user_preferences db uid language tone).sessions = db.sessions := by
  cases language <;> cases tone <;>
    simp only [update_user_preferences] <;> split_ifs <;> rfl

theorem updOne_frame (uid : String) (language tone : Option String) (u : UserRow) :
    (updOne uid language tone u).id = u.id ∧
      (updOne uid language tone u).user_id = u.user_id ∧
      (updOne uid language tone u).name = u.name ∧
      (updOne uid language tone u).created_at = u.created_at := by
  cases language <;> cases tone <;>
    refine ⟨?_, ?_, ?_, ?_⟩ <;>
    simp only [updOne, setLang, setTone] <;>
    (try split_ifs) <;> rfl

theorem updOne_tone_none (uid : String) (language : Option String) (u : UserRow) :
    (updOne uid language none u).voice_tone = u.voice_tone := by
  cases language <;> simp only [updOne, setLang] <;> (try split_ifs) <;> rfl

theorem updOne_lang_none (uid : String) (tone : Option String) (u : UserRow) :
    (updOne uid none tone u).preferred_language = u.preferred_language := by
  cases tone <;> simp only [updOne, setTone] <;> (try split_ifs) <;> rfl

theorem updOne_other (uid : String) (language tone : Option String) (u : UserRow)
    (h : u.user_id ≠ uid) : updOne uid language tone u = u := by
  cases language <;> cases tone <;> simp [updOne, setLang, setTone, h]

/-- C7: `update_preferences` is a frame-respecting partial update: at
every row position, `id`, `user_id`, `name` and `created_at` are
untouched; when `tone` is not supplied (`None`), `voice_tone` is
untouched; when `language` is not supplied, `preferred_language` is
untouched; rows of other users are untouched entirely; and the
`conversation` and `sessions` tables are untouched in all cases. -/
theorem claim_C7_thm (db : DB) (uid : String) (language tone : Option String)
    (i : Nat) :
    ((update_user_preferences db uid language tone).conversation =
        db.conversation) ∧
    ((update_user_preferences db uid language tone).sessions = db.sessions) ∧
    ((update_user_preferences db uid language tone).users[i]?.map
        (fun u => (u.id, u.user_id, u.name, u.created_at)) =
      db.users[i]?.map (fun u => (u.id, u.user_id, u.name, u.created_at))) ∧
    (tone = none →
      (update_user_preferences db uid language tone).users[i]?.map
          (fun u => u.voice_tone) =
        db.users[i]?.map (fun u => u.voice_tone)) ∧
    (language = none →
      (update_user_preferences db uid language tone).users[i]?.map
          (fun u => u.preferred_language) =
        db.users[i]?.map (fun u => u.preferred_language)) ∧
    (∀ u, db.users[i]? = some u → u.user_id ≠ uid →
      (update_user_preferences db uid language tone).users[i]? = some u) := by
  refine ⟨update_conversation_eq db uid language tone,
    update_sessions_eq db uid language tone, ?_, ?_, ?_, ?_⟩
  · rw [update_users_eq, List.getElem?_map]
    cases hdb : db.users[i]? with
    | none => rfl
    | some u =>
        obtain ⟨e1, e2, e3, e4⟩ := updOne_frame uid language tone u
        simp [e1, e2, e3, e4]
  · intro h
    subst h
    rw [update_users_eq, List.getElem?_map]
    cases hdb : db.users[i]? with
    | none => rfl
    | some u => simp [updOne_tone_none]
  · intro h
    subst h
    rw [update_users_eq, List.getElem?_map]
    cases hdb : db.users[i]? with
    | none => rfl
    | some u => simp [updOne_lang_none]
  · intro u hu hne
    rw [update_users_eq, List.getElem?_map, hu]
    simp [updOne_other uid language tone u hne]

/-- A store holding one profile, for user `"u1"`. -/
def dbProfile : DB := create_user_profile DB.empty "u1" "U1" "en" "neutral" "t1"

/-- Witness for `claim_C7_thm`: supplying only `language` on `"u1"`'s
profile leaves `voice_tone` and the conversation table unchanged. -/
theorem claim_C7_witness :
    ((update_user_preferences dbProfile "u1" (some "hi") none).users[0]?.map
        (fun u => u.voice_tone) =
      dbProfile.users[0]?.map (fun u => u.voice_tone)) ∧
      ((update_user_preferences dbProfile "u1" (some "hi") none).conversation =
        dbProfile.conversation) :=
  ⟨(claim_C7_thm dbProfile "u1" (some "hi") none 0).2.2.2.1 rfl,
    (claim_C7_thm dbProfile "u1" (some "hi") none 0).1⟩

/-- C8: the conversation log is append-only.  Every mutating store
operation other than `save_message` leaves the `conversation` table
identical; `save_message` preserves every existing record at its
position (it only appends).  The two read operations
(`get_user_profile`, `get_recent_context`) are pure functions
`DB → result` in this embedding — their types show they cannot mutate
anything. -/
theorem claim_C8_thm (db : DB) (u1 n l t ts1 u2 : String)
    (language tone : Option String) (u3 ts3 u4 ts4 u5 r5 m5 ts5 : String)
    (i : Nat) (c : ConvRow) :
    (create_user_profile db u1 n l t ts1).conversation = db.conversation ∧
    (update_user_preferences db u2 language tone).conversation =
      db.conversation ∧
    (start_session db u3 ts3).conversation = db.conversation ∧
    (end_session db u4 ts4).conversation = db.conversation ∧
    (db.conversation[i]? = some c →
      (save_message db u5 r5 m5 ts5).conversation[i]? = some c) := by
  refine ⟨?_, update_conversation_eq db u2 language tone, rfl, rfl, ?_⟩
  · rw [create_user_profile]
    split_ifs <;> rfl
  · intro h
    obtain ⟨hi, _⟩ := List.getElem?_eq_some_iff.mp h
    show (db.conversation ++ [⟨db.nextConvId, u5, r5, m5, ts5⟩])[i]? = some c
    rw [List.getElem?_append_left hi]
    exact h

/-- Witness for `claim_C8_thm`: the message stored in `dbOneMsg` survives
a later append by another user. -/
theorem claim_C8_witness :
    dbOneMsg.conversation[0]? = some ⟨1, "u1", "user", "hi", "t1"⟩ ∧
      (save_message dbOneMsg "u2" "assistant" "hello" "t2").conversation[0]? =
        some ⟨1, "u1", "user", "hi", "t1"⟩ :=
  ⟨by decide,
    (claim_C8_thm dbOneMsg "x" "x" "x" "x" "x" "x" none none "x" "x" "x" "x"
        "u2" "assistant" "hello" "t2" 0 ⟨1, "u1", "user", "hi", "t1"⟩).2.2.2.2
      (by decide)⟩

/-- C9: an empty string supplied for `language` or `tone` is falsy in
Python (`if language:` / `if tone:`), so it is treated exactly like not
supplying the field: the corresponding `UPDATE` never runs.  In
particular `update_user_preferences(uid, "", "")` is the identity on the
store. -/
theorem claim_C9_thm (db : DB) (uid : String) (language tone : Option String) :
    update_user_preferences db uid (some "") tone =
        update_user_preferences db uid none tone ∧
      update_user_preferences db uid language (some "") =
        update_user_preferences db uid language none ∧
      update_user_preferences db uid (some "") (some "") = db := by
  refine ⟨?_, ?_, ?_⟩
  · cases tone <;> simp [update_user_preferences]
  · cases language <;> simp [update_user_preferences]
  · simp [update_user_preferences]

/-- C10: per-user isolation of reads.  `save_message` for `u1` changes
neither `get_recent_context(u2, limit)` (for any `limit`) nor
`get_user_profile(u2)` when `u1 ≠ u2`: both reads filter on
`user_id = ?`, so they see only the queried user's rows. -/
theorem claim_C10_thm (db : DB) (u1 u2 role msg ts : String) (limit : Int)
    (h : u1 ≠ u2) :
    get_recent_context (save_message db u1 role msg ts) u2 limit =
        get_recent_context db u2 limit ∧
      get_user_profile (save_message db u1 role msg ts) u2 =
        get_user_profile db u2 := by
  constructor
  · have hfil : (save_message db u1 role msg ts).conversation.filter
        (fun r => r.user_id == u2) =
        db.conversation.filter (fun r => r.user_id == u2) := by
      show ((db.conversation ++
            [(⟨db.nextConvId, u1, role, msg, ts⟩ : ConvRow)]).filter
          (fun r => r.user_id == u2)) =
        db.conversation.filter (fun r => r.user_id == u2)
      rw [List.filter_append]
      simp [List.filter_cons, h]
    rw [get_recent_context, get_recent_context, hfil]
  · rfl

/-- Witness for `claim_C10_thm`: an append for `"u1"` is invisible to
`"u2"`'s reads. -/
theorem claim_C10_witness :
    ("u1" : String) ≠ "u2" ∧
      get_recent_context (save_message DB.empty "u1" "user" "hi" "t1") "u2" 8 =
        get_recent_context DB.empty "u2" 8 ∧
      get_user_profile (save_message DB.empty "u1" "user" "hi" "t1") "u2" =
        get_user_profile DB.empty "u2" :=
  ⟨by decide, claim_C10_thm DB.empty "u1" "u2" "user" "hi" "t1" 8 (by decide)⟩
